import Mathlib

/-!
Verification of the Helios event-processing backend.

Shallow embedding of the Python sources:
  scripts/compute.py        -- chunk planning, per-chunk aggregation, merging, engine
  scripts/worker.py         -- the out-of-process worker executable
  scripts/job_manager.py    -- the in-memory job store
  scripts/main.py           -- the HTTP layer's cancel endpoint

Numbers: Python ints become Nat, Python floats become Rat (exact arithmetic),
timestamps become Rat.  Python dicts used as counters (status_counts,
sensor_counts) become total functions `String → Nat` with absent keys read
as 0; this preserves every counter value the code computes.
-/
namespace Helios

/-- One CSV data row, restricted to the fields the core consumes
(`status`, `sensor_id`, `energy`). -/
structure Row where
  status : String
  sensor_id : String
  energy : Rat
deriving DecidableEq

/-- The result record produced by `EventProcessor.get_results` in both
compute.py (lines 41-50) and worker.py (lines 37-46): the five accumulated
statistics plus the derived average. -/
structure ProcResults where
  total : Nat
  status_counts : String → Nat
  sensor_counts : String → Nat
  energy_sum : Rat
  high_energy_events : Nat
  avg_energy : Rat

/-- The merged aggregate built by `merge_results` in compute.py (lines 73-99):
the same summable fields plus `chunks_processed` and the recomputed average. -/
structure Merged where
  total : Nat
  status_counts : String → Nat
  sensor_counts : String → Nat
  energy_sum : Rat
  high_energy_events : Nat
  chunks_processed : Nat
  avg_energy : Rat

/-- compute.py `split_into_chunks` (lines 106-119): chunk i starts at
`i * (total_rows / num_workers)`; every chunk but the last has
`total_rows / num_workers` rows and the last takes all remaining rows. -/
def split_into_chunks (total_rows num_workers : Nat) : List (Nat × Nat) :=
  let chunk_size := total_rows / num_workers
  (List.range num_workers).map fun i =>
    let start_row := i * chunk_size
    let num_rows := if i = num_workers - 1 then total_rows - start_row else chunk_size
    (start_row, num_rows)

/-- compute.py `EventProcessor` accumulator state (lines 19-24). -/
structure EPState where
  total : Nat
  status_counts : String → Nat
  sensor_counts : String → Nat
  energy_sum : Rat
  high_energy_events : Nat

namespace Compute

/-- compute.py `EventProcessor.__init__` (lines 19-24). -/
def initEP : EPState :=
  { total := 0, status_counts := fun _ => 0, sensor_counts := fun _ => 0,
    energy_sum := 0, high_energy_events := 0 }

/-- compute.py `EventProcessor.process_event` (lines 26-39). -/
def process_event (s : EPState) (r : Row) : EPState :=
  { total := s.total + 1
    status_counts := fun k => if k = r.status then s.status_counts k + 1 else s.status_counts k
    sensor_counts := fun k => if k = r.sensor_id then s.sensor_counts k + 1 else s.sensor_counts k
    energy_sum := s.energy_sum + r.energy
    high_energy_events :=
      if r.energy > 100 then s.high_energy_events + 1 else s.high_energy_events }

/-- compute.py `EventProcessor.get_results` (lines 41-50). -/
def get_results (s : EPState) : ProcResults :=
  { total := s.total, status_counts := s.status_counts, sensor_counts := s.sensor_counts,
    energy_sum := s.energy_sum, high_energy_events := s.high_energy_events,
    avg_energy := if s.total > 0 then s.energy_sum / (s.total : Rat) else 0 }

end Compute

/-- The rows a worker consumes: compute.py lines 61-66 / worker.py lines 67-72
enumerate the reader, skip indices below `start_row` and stop at
`start_row + num_rows`. -/
def chunkRows (rows : List Row) (start_row num_rows : Nat) : List Row :=
  (rows.drop start_row).take num_rows

/-- The chunk result of compute.py `process_chunk_worker` (lines 52-71):
`get_results` output plus the `chunk_id` tag. -/
structure ChunkResult where
  res : ProcResults
  chunk_id : Nat

/-- compute.py `process_chunk_worker` (lines 52-71). -/
def process_chunk_worker (rows : List Row) (start_row num_rows chunk_id : Nat) : ChunkResult :=
  { res := Compute.get_results ((chunkRows rows start_row num_rows).foldl Compute.process_event Compute.initEP)
    chunk_id := chunk_id }

/-- The loop body of compute.py `merge_results` (lines 84-93): add one
result's summable fields into the accumulator. -/
def mergeStep (m : Merged) (r : ProcResults) : Merged :=
  { total := m.total + r.total
    energy_sum := m.energy_sum + r.energy_sum
    high_energy_events := m.high_energy_events + r.high_energy_events
    status_counts := fun k => m.status_counts k + r.status_counts k
    sensor_counts := fun k => m.sensor_counts k + r.sensor_counts k
    chunks_processed := m.chunks_processed
    avg_energy := m.avg_energy }

/-- compute.py `merge_results` (lines 73-99): `chunks_processed` is the input
length, the five summable fields are accumulated over the inputs, and
`avg_energy` is set at the end. -/
def merge_results (rs : List ProcResults) : Merged :=
  let m := rs.foldl mergeStep
    { total := 0, status_counts := fun _ => 0, sensor_counts := fun _ => 0,
      energy_sum := 0, high_energy_events := 0, chunks_processed := rs.length,
      avg_energy := 0 }
  { m with avg_energy := if m.total > 0 then m.energy_sum / (m.total : Rat) else 0 }

/-- Projection of a merged aggregate back to the result shape `merge_results`
reads: the five summable fields plus the average (which the merge ignores). -/
def Merged.toProcResults (m : Merged) : ProcResults :=
  { total := m.total, status_counts := m.status_counts, sensor_counts := m.sensor_counts,
    energy_sum := m.energy_sum, high_energy_events := m.high_energy_events,
    avg_energy := m.avg_energy }

/-- Equality of two aggregates on the claim's fields: `total`,
`status_counts`, `sensor_counts`, `energy_sum`, `high_energy_events` and
`avg_energy` (everything except `chunks_processed`). -/
def aggEquiv (a b : Merged) : Prop :=
  a.total = b.total ∧ a.status_counts = b.status_counts ∧
  a.sensor_counts = b.sensor_counts ∧ a.energy_sum = b.energy_sum ∧
  a.high_energy_events = b.high_energy_events ∧ a.avg_energy = b.avg_energy

/-- Fuel-driven base-2 logarithm on naturals (greatest e with `2^e ≤ n`),
used to find the binade of a positive rational; 1100 fuel covers the whole
binary64 exponent range. -/
def log2fuel : Nat → Nat → Nat
  | 0, _ => 0
  | f + 1, n => if 2 ≤ n then log2fuel f (n / 2) + 1 else 0

/-- Fuel-driven base-2 ceiling logarithm on rationals (least k with
`q ≤ 2^k` for `q > 1`), used for the binade of rationals below 1. -/
def clog2fuel : Nat → Rat → Nat
  | 0, _ => 0
  | f + 1, q => if 1 < q then clog2fuel f (q / 2) + 1 else 0

/-- `2^e` as a rational, for an integer exponent. -/
def ipow2 (e : Int) : Rat :=
  if 0 ≤ e then 2 ^ e.toNat else 1 / 2 ^ (-e).toNat

/-- Greatest `e` with `2^e ≤ q`, for a positive rational `q`: the binade
exponent of an IEEE-754 value. -/
def ilog2 (q : Rat) : Int :=
  if 1 ≤ q then (log2fuel 1100 (⌊q⌋.toNat) : Int) else -(clog2fuel 1100 (1 / q) : Int)

/-- Round a rational to the nearest integer, ties to even: the IEEE-754
default rounding applied to a scaled significand. -/
def rnEvenInt (x : Rat) : Int :=
  if x - ⌊x⌋ < 1 / 2 then ⌊x⌋
  else if x - ⌊x⌋ > 1 / 2 then ⌊x⌋ + 1
  else if 2 ∣ ⌊x⌋ then ⌊x⌋ else ⌊x⌋ + 1

/-- Round a positive rational to 53 significant bits: scale into
`[2^52, 2^53)`, round to the nearest integer ties-to-even, scale back. -/
def roundB64pos (q : Rat) : Rat :=
  let e := ilog2 q
  ((rnEvenInt (q * ipow2 (52 - e)) : Rat)) * ipow2 (e - 52)

/-- IEEE-754 binary64 rounding of an exact rational (round to nearest, ties
to even), the value semantics of a Python float result: sign-symmetric,
exact at 0.  Overflow to infinity and subnormal underflow sit outside the
magnitudes this development evaluates it at. -/
def roundB64 (q : Rat) : Rat :=
  if 0 < q then roundB64pos q
  else if q < 0 then -(roundB64pos (-q))
  else 0

/-- Python float addition as in compute.py line 86
(`merged['energy_sum'] += result['energy_sum']`): the exact sum rounded to
binary64. -/
def flAdd (x y : Rat) : Rat := roundB64 (x + y)

/-- The loop body of compute.py `merge_results` (lines 84-93) with the
float-faithful `energy_sum` accumulation: identical to `mergeStep` except
that `energy_sum` is accumulated with binary64 addition, as the program's
IEEE doubles are. -/
def mergeStepFloat (m : Merged) (r : ProcResults) : Merged :=
  { total := m.total + r.total
    energy_sum := flAdd m.energy_sum r.energy_sum
    high_energy_events := m.high_energy_events + r.high_energy_events
    status_counts := fun k => m.status_counts k + r.status_counts k
    sensor_counts := fun k => m.sensor_counts k + r.sensor_counts k
    chunks_processed := m.chunks_processed
    avg_energy := m.avg_energy }

/-- compute.py `merge_results` (lines 73-99) with float-faithful arithmetic:
the integer counters are exact (Python ints), `energy_sum` is a chain of
binary64 additions in input order, and `avg_energy` is the binary64-rounded
quotient (float division is correctly rounded). -/
def merge_resultsFloat (rs : List ProcResults) : Merged :=
  let m := rs.foldl mergeStepFloat
    { total := 0, status_counts := fun _ => 0, sensor_counts := fun _ => 0,
      energy_sum := 0, high_energy_events := 0, chunks_processed := rs.length,
      avg_energy := 0 }
  { m with avg_energy :=
      if m.total > 0 then roundB64 (m.energy_sum / (m.total : Rat)) else 0 }

/-- A one-event result whose energy sum is `1e16` (exactly representable in
binary64: it is below `2^54` and even). -/
def pBig : ProcResults :=
  { total := 1, status_counts := fun _ => 0, sensor_counts := fun _ => 0,
    energy_sum := 10 ^ 16, high_energy_events := 1, avg_energy := 10 ^ 16 }

/-- A one-event result whose energy sum is `1.0`. -/
def pOne : ProcResults :=
  { total := 1, status_counts := fun _ => 0, sensor_counts := fun _ => 0,
    energy_sum := 1, high_energy_events := 0, avg_energy := 1 }

/-- A one-event result whose energy sum is `-1e16`. -/
def pNegBig : ProcResults :=
  { total := 1, status_counts := fun _ => 0, sensor_counts := fun _ => 0,
    energy_sum := -(10 ^ 16), high_energy_events := 0, avg_energy := -(10 ^ 16) }

/-- The artifact a worker writes: worker.py lines 75-81, the `get_results`
record plus `worker_id` and `processing_time`. -/
structure WorkerArtifact where
  res : ProcResults
  worker_id : Nat
  processing_time : Rat

namespace Worker

/-- worker.py `EventProcessor.__init__` (lines 15-20). -/
def initEP : EPState :=
  { total := 0, status_counts := fun _ => 0, sensor_counts := fun _ => 0,
    energy_sum := 0, high_energy_events := 0 }

/-- worker.py `EventProcessor.process_event` (lines 22-35). -/
def process_event (s : EPState) (r : Row) : EPState :=
  { total := s.total + 1
    status_counts := fun k => if k = r.status then s.status_counts k + 1 else s.status_counts k
    sensor_counts := fun k => if k = r.sensor_id then s.sensor_counts k + 1 else s.sensor_counts k
    energy_sum := s.energy_sum + r.energy
    high_energy_events :=
      if r.energy > 100 then s.high_energy_events + 1 else s.high_energy_events }

/-- worker.py `EventProcessor.get_results` (lines 37-46). -/
def get_results (s : EPState) : ProcResults :=
  { total := s.total, status_counts := s.status_counts, sensor_counts := s.sensor_counts,
    energy_sum := s.energy_sum, high_energy_events := s.high_energy_events,
    avg_energy := if s.total > 0 then s.energy_sum / (s.total : Rat) else 0 }

end Worker

/-- worker.py `main` (lines 48-84): consume the assigned row range with the
worker's own `EventProcessor`, then write the results record with
`worker_id` and the measured `processing_time` (an environment input
here, `elapsed`). -/
def worker_main (rows : List Row) (start_row num_rows worker_id : Nat)
    (elapsed : Rat) : WorkerArtifact :=
  { res := Worker.get_results
      ((chunkRows rows start_row num_rows).foldl Worker.process_event Worker.initEP)
    worker_id := worker_id
    processing_time := elapsed }

/-- The dict returned by `ComputeEngine._process_multiprocessing` /
`_process_subprocess`: the merged aggregate plus the `method` and
`num_workers` labels added at the end. -/
structure FinalResults where
  merged : Merged
  method : String
  num_workers : Nat

/-- compute.py `ComputeEngine._process_multiprocessing` (lines 172-208):
run `process_chunk_worker` on every enumerated chunk, merge, and label. -/
def processMultiprocessing (rows : List Row) (chunks : List (Nat × Nat))
    (num_workers : Nat) : FinalResults :=
  let chunk_results := chunks.enum.map fun ic => process_chunk_worker rows ic.2.1 ic.2.2 ic.1
  { merged := merge_results (chunk_results.map fun c => c.res)
    method := "multiprocessing"
    num_workers := num_workers }

/-- compute.py `ComputeEngine._process_subprocess` (lines 210-259): spawn one
worker per enumerated chunk, wait, then collect ONLY the artifacts whose
output file exists (line 247 `if output_file.exists()`) and merge them.
The filesystem outcome is the environment input `completed`: `completed i`
says whether worker i's artifact file exists after all processes
terminated, and `elapsed i` is its measured processing time. -/
def processSubprocess (rows : List Row) (chunks : List (Nat × Nat)) (num_workers : Nat)
    (completed : Nat → Bool) (elapsed : Nat → Rat) : FinalResults :=
  let artifacts := chunks.enum.map fun ic =>
    if completed ic.1 then some (worker_main rows ic.2.1 ic.2.2 ic.1 (elapsed ic.1)) else none
  let collected := artifacts.filterMap id
  { merged := merge_results (collected.map fun a => a.res)
    method := "subprocess"
    num_workers := num_workers }

/-- The failure modes of `ComputeEngine.process_events` (compute.py lines
143-164): `FileNotFoundError` for a missing input, `ValueError` for an
unknown method string. -/
inductive EngineError where
  | fileNotFound (f : String)
  | unknownMethod (m : String)
deriving DecidableEq

/-- compute.py `ComputeEngine.process_events` (lines 124-170): check the
input exists, count rows, plan chunks, then dispatch on `method` —
`"multiprocessing"`, `"subprocess"`, or an `Unknown method` error.
`input_rows` is the filesystem content at `input_file` (`none` = missing
file); `completed`/`elapsed` are the subprocess environment inputs. -/
def process_events (input_file : String) (input_rows : Option (List Row))
    (num_workers : Nat) (method : String)
    (completed : Nat → Bool) (elapsed : Nat → Rat) : Except EngineError FinalResults :=
  match input_rows with
  | none => .error (.fileNotFound input_file)
  | some rows =>
    let total_rows := rows.length
    let chunks := split_into_chunks total_rows num_workers
    if method = "multiprocessing" then
      .ok (processMultiprocessing rows chunks num_workers)
    else if method = "subprocess" then
      .ok (processSubprocess rows chunks num_workers completed elapsed)
    else
      .error (.unknownMethod method)

/-- job_manager.py `JobStatus` (lines 12-17). -/
inductive JobStatus where
  | pending
  | running
  | completed
  | failed
  | cancelled
deriving DecidableEq

/-- One job record as created by `JobManager.create_job`
(job_manager.py lines 36-48).  Timestamps are `Rat` instants. -/
structure Job where
  id : String
  input_file : String
  num_workers : Nat
  method : String
  status : JobStatus
  progress : Rat
  created_at : Rat
  started_at : Option Rat
  completed_at : Option Rat
  results : Option FinalResults
  error : Option String

/-- The job registry: the `self.jobs` dict as an insertion-ordered
association list with unique keys; lookup returns the first match. -/
def lookupJob : List (String × Job) → String → Option Job
  | [], _ => none
  | kj :: rest, jid => if kj.1 = jid then some kj.2 else lookupJob rest jid

/-- The `if job_id in self.jobs:` guard shared by every mutation of
job_manager.py: apply `f` to the registry entry when the id is present,
otherwise leave the registry untouched. -/
def updateIfPresent (jobs : List (String × Job)) (jid : String)
    (f : Job → Job) : List (String × Job) :=
  if (lookupJob jobs jid).isSome then
    jobs.map fun kj => if kj.1 = jid then (kj.1, f kj.2) else kj
  else jobs

/-- The body of `JobManager.update_job_status` (job_manager.py lines 61-66):
set the status, then stamp `started_at` on a first transition to running, or
`completed_at` on any transition to a terminal status. -/
def applyStatus (s : JobStatus) (now : Rat) (j : Job) : Job :=
  if s = JobStatus.running ∧ j.started_at = none then
    { j with status := s, started_at := some now }
  else if s = JobStatus.completed ∨ s = JobStatus.failed ∨ s = JobStatus.cancelled then
    { j with status := s, completed_at := some now }
  else
    { j with status := s }

/-- job_manager.py `JobManager.update_job_status` (lines 57-66). -/
def update_job_status (jobs : List (String × Job)) (jid : String)
    (s : JobStatus) (now : Rat) : List (String × Job) :=
  updateIfPresent jobs jid (applyStatus s now)

/-- job_manager.py `JobManager.update_progress` (lines 68-72):
clamp to [0, 1]. -/
def update_progress (jobs : List (String × Job)) (jid : String)
    (p : Rat) : List (String × Job) :=
  updateIfPresent jobs jid fun j => { j with progress := min (max p 0) 1 }

/-- job_manager.py `JobManager.complete_job` (lines 74-81). -/
def complete_job (jobs : List (String × Job)) (jid : String)
    (results : FinalResults) (now : Rat) : List (String × Job) :=
  updateIfPresent jobs jid fun j =>
    { j with status := JobStatus.completed, results := some results,
             progress := 1, completed_at := some now }

/-- job_manager.py `JobManager.fail_job` (lines 83-89). -/
def fail_job (jobs : List (String × Job)) (jid : String)
    (err : String) (now : Rat) : List (String × Job) :=
  updateIfPresent jobs jid fun j =>
    { j with status := JobStatus.failed, error := some err,
             completed_at := some now }

/-- The failure modes of main.py `cancel_job` (lines 195-219): HTTP 404 for
an unknown id, HTTP 400 when the job is not pending/running. -/
inductive CancelError where
  | notFound (jid : String)
  | badStatus (s : JobStatus)
deriving DecidableEq

/-- main.py `cancel_job` (lines 195-219): 404 if the job is unknown, 400 if
its status is not pending/running, otherwise set the status to cancelled
through the store. -/
def cancel_job (jobs : List (String × Job)) (jid : String) (now : Rat) :
    Except CancelError (List (String × Job)) :=
  match lookupJob jobs jid with
  | none => Except.error (CancelError.notFound jid)
  | some j =>
    if j.status = JobStatus.pending ∨ j.status = JobStatus.running then
      Except.ok (update_job_status jobs jid JobStatus.cancelled now)
    else
      Except.error (CancelError.badStatus j.status)

/-- Stable descending insertion by `created_at`: the element goes after every
element with an equal or larger key, as Python's stable
`sort(key=..., reverse=True)` orders equal keys. -/
def insertJobDesc (j : Job) : List Job → List Job
  | [] => [j]
  | k :: rest =>
    if k.created_at < j.created_at then j :: k :: rest else k :: insertJobDesc j rest

/-- Model of job_manager.py line 105 `jobs.sort(key=created_at, reverse=True)`:
a stable sort, newest first. -/
def sortJobsDesc (l : List Job) : List Job :=
  l.foldl (fun acc j => insertJobDesc j acc) []

/-- job_manager.py `JobManager.list_jobs` (lines 91-111): take the values,
filter by status when one is given, sort newest-first, and truncate ONLY
when `limit` is a truthy (non-zero) value — `if limit:` on line 108. -/
def list_jobs (jobs : List (String × Job)) (status : Option JobStatus)
    (limit : Option Nat) : List Job :=
  let js := jobs.map fun kj => kj.2
  let js := match status with
    | some s => js.filter fun j => decide (j.status = s)
    | none => js
  let sorted := sortJobsDesc js
  match limit with
  | some l => if l ≠ 0 then sorted.take l else sorted
  | none => sorted

/-- The removal test of `JobManager.clear_completed_jobs` (job_manager.py
lines 124-128): status is completed or failed AND the completion time is
before the cutoff. -/
def sweepRemoves (cutoff : Rat) (j : Job) : Bool :=
  ((j.status == JobStatus.completed) || (j.status == JobStatus.failed)) &&
    (match j.completed_at with
     | some t => decide (t < cutoff)
     | none => false)

/-- job_manager.py `JobManager.clear_completed_jobs` (lines 118-133):
`cutoff = now - hours * 3600`; collect the completed/failed jobs older than
the cutoff, delete them, and return how many were removed.  A completed or
failed job with no `completed_at` makes `datetime.fromisoformat(None)` raise,
so the call produces nothing (`none`) and the registry is untouched. -/
def clear_completed_jobs (jobs : List (String × Job)) (now : Rat)
    (older_than_hours : Nat) : Option (Nat × List (String × Job)) :=
  let cutoff := now - (older_than_hours : Rat) * 3600
  if jobs.any (fun kj =>
      ((kj.2.status == JobStatus.completed) || (kj.2.status == JobStatus.failed)) &&
      kj.2.completed_at.isNone) then
    none
  else
    some ((jobs.filter fun kj => sweepRemoves cutoff kj.2).length,
          jobs.filter fun kj => !(sweepRemoves cutoff kj.2))

/-- A terminal (completed) job used in concrete tests of the store. -/
def cjob : Job :=
  { id := "a", input_file := "f.csv", num_workers := 4, method := "multiprocessing",
    status := JobStatus.completed, progress := 1, created_at := 0,
    started_at := some 1, completed_at := some 2, results := none, error := none }

/-- A cancelled job whose completion time is long past. -/
def canJob : Job :=
  { id := "c", input_file := "f.csv", num_workers := 4, method := "multiprocessing",
    status := JobStatus.cancelled, progress := 0, created_at := 0,
    started_at := some 0, completed_at := some 0, results := none, error := none }

theorem split_into_chunks_length (T N : Nat) : (split_into_chunks T N).length = N := by
  simp [split_into_chunks]

theorem split_into_chunks_get (T N : Nat) (i : Nat) (h : i < (split_into_chunks T N).length) :
    (split_into_chunks T N).get ⟨i, h⟩ =
      (i * (T / N), if i = N - 1 then T - i * (T / N) else T / N) := by
  simp [split_into_chunks]

theorem pred_mul_div_le (T N : Nat) : (N - 1) * (T / N) ≤ T := by
  calc (N - 1) * (T / N) ≤ N * (T / N) :=
        Nat.mul_le_mul_right _ (Nat.sub_le N 1)
    _ = T / N * N := Nat.mul_comm _ _
    _ ≤ T := Nat.div_mul_le_self T N

theorem split_into_chunks_sum (T N : Nat) (hN : 1 ≤ N) :
    ((split_into_chunks T N).map (fun c => c.2)).sum = T := by
  have hsplit : List.range N = List.range (N - 1) ++ [N - 1] := by
    have : N = (N - 1) + 1 := (Nat.succ_pred_eq_of_pos hN).symm
    rw [this, List.range_succ, Nat.add_sub_cancel]
  simp only [split_into_chunks, hsplit, List.map_append, List.sum_append, List.map_map]
  have hcong : ∀ x ∈ List.range (N - 1),
      ((fun c : Nat × Nat => c.2) ∘ fun i =>
        (i * (T / N), if i = N - 1 then T - i * (T / N) else T / N)) x = T / N := by
    intro x hx
    have hx' : x < N - 1 := List.mem_range.mp hx
    simp [Function.comp, Nat.ne_of_lt hx']
  rw [List.map_congr_left hcong]
  have hconst : (List.range (N - 1)).map (fun _ => T / N) =
      List.replicate (N - 1) (T / N) := by
    simp [List.map_const]
  rw [hconst, List.sum_replicate, smul_eq_mul]
  simp only [Function.comp, List.map_cons, List.map_nil, List.sum_cons, List.sum_nil,
    if_pos rfl, add_zero]
  exact Nat.add_sub_cancel' (pred_mul_div_le T N)

/-- C1: for every `total_rows ≥ 0` and `num_workers ≥ 1`, `split_into_chunks`
returns exactly `num_workers` chunks; chunk 0 starts at row 0; each chunk's
start is the previous chunk's start plus its row count; the row counts sum to
`total_rows`; every chunk but the last has `total_rows / num_workers` rows and
the last has `total_rows - (num_workers - 1) * (total_rows / num_workers)`. -/
theorem split_into_chunks_partition (T N : Nat) (hN : 1 ≤ N) :
    (split_into_chunks T N).length = N ∧
    (∀ h0 : 0 < (split_into_chunks T N).length,
      ((split_into_chunks T N).get ⟨0, h0⟩).1 = 0) ∧
    (∀ i (h : i + 1 < (split_into_chunks T N).length),
      ((split_into_chunks T N).get ⟨i + 1, h⟩).1 =
        ((split_into_chunks T N).get ⟨i, Nat.lt_of_succ_lt h⟩).1 +
        ((split_into_chunks T N).get ⟨i, Nat.lt_of_succ_lt h⟩).2) ∧
    ((split_into_chunks T N).map (fun c => c.2)).sum = T ∧
    (∀ i (h : i < (split_into_chunks T N).length), i < N - 1 →
      ((split_into_chunks T N).get ⟨i, h⟩).2 = T / N) ∧
    (∀ h : N - 1 < (split_into_chunks T N).length,
      ((split_into_chunks T N).get ⟨N - 1, h⟩).2 = T - (N - 1) * (T / N)) := by
  refine ⟨split_into_chunks_length T N, ?_, ?_, split_into_chunks_sum T N hN, ?_, ?_⟩
  · intro h0
    rw [split_into_chunks_get]
    simp
  · intro i h
    rw [split_into_chunks_get, split_into_chunks_get]
    have hlen := split_into_chunks_length T N
    have hi : i + 1 < N := by rwa [hlen] at h
    have hne : i ≠ N - 1 := by omega
    simp only [if_neg hne]
    ring_nf
  · intro i h hi
    rw [split_into_chunks_get]
    have hne : i ≠ N - 1 := Nat.ne_of_lt hi
    simp [hne]
  · intro h
    rw [split_into_chunks_get]
    simp

/-- The merge fold characterised: each summable field of the fold is the
initial value plus the per-field sum over the inputs; `chunks_processed`
and `avg_energy` are untouched by the fold. -/
theorem merge_fold_spec (rs : List ProcResults) (m0 : Merged) :
    rs.foldl mergeStep m0 =
    { total := m0.total + (rs.map (fun r => r.total)).sum
      status_counts := fun k => m0.status_counts k + (rs.map (fun r => r.status_counts k)).sum
      sensor_counts := fun k => m0.sensor_counts k + (rs.map (fun r => r.sensor_counts k)).sum
      energy_sum := m0.energy_sum + (rs.map (fun r => r.energy_sum)).sum
      high_energy_events := m0.high_energy_events + (rs.map (fun r => r.high_energy_events)).sum
      chunks_processed := m0.chunks_processed
      avg_energy := m0.avg_energy } := by
  induction rs generalizing m0 with
  | nil => simp
  | cons r rs ih =>
    simp only [List.foldl_cons, List.map_cons, List.sum_cons, ih, mergeStep]
    congr 1 <;> first
      | omega
      | (funext k; dsimp; omega)
      | (dsimp; ring)

/-- `merge_results` characterised: every field is the per-field sum over the
inputs, `chunks_processed` is the input length, and `avg_energy` is
`energy_sum / total` (0 when `total` is 0). -/
theorem merge_results_spec (rs : List ProcResults) :
    merge_results rs =
    { total := (rs.map (fun r => r.total)).sum
      status_counts := fun k => (rs.map (fun r => r.status_counts k)).sum
      sensor_counts := fun k => (rs.map (fun r => r.sensor_counts k)).sum
      energy_sum := (rs.map (fun r => r.energy_sum)).sum
      high_energy_events := (rs.map (fun r => r.high_energy_events)).sum
      chunks_processed := rs.length
      avg_energy :=
        if 0 < (rs.map (fun r => r.total)).sum then
          (rs.map (fun r => r.energy_sum)).sum / (((rs.map (fun r => r.total)).sum : Nat) : Rat)
        else 0 } := by
  unfold merge_results
  rw [merge_fold_spec]
  simp

/-- Under EXACT arithmetic (the idealisation in which every number of
compute.py is an unrounded rational), merging is order- and
grouping-independent: a permutation of the inputs gives the identical
`Merged` record, and merging group-by-group agrees with merging everything
at once on every field but `chunks_processed`.  This is the half of the
spec's invariance statement that survives; the float-faithful model below
refutes the other half. -/
theorem merge_results_perm_and_grouping (l l' : List ProcResults) (h : l.Perm l')
    (gs : List (List ProcResults)) :
    merge_results l = merge_results l' ∧
    aggEquiv (merge_results gs.flatten)
      (merge_results (gs.map (fun g => (merge_results g).toProcResults))) := by
  constructor
  · rw [merge_results_spec, merge_results_spec]
    have ht : (l.map (fun r => r.total)).sum = (l'.map (fun r => r.total)).sum :=
      (h.map _).sum_eq
    have he : (l.map (fun r => r.energy_sum)).sum = (l'.map (fun r => r.energy_sum)).sum :=
      (h.map _).sum_eq
    have hh : (l.map (fun r => r.high_energy_events)).sum =
        (l'.map (fun r => r.high_energy_events)).sum := (h.map _).sum_eq
    have hl : l.length = l'.length := h.length_eq
    have hs : ∀ k, (l.map (fun r => r.status_counts k)).sum =
        (l'.map (fun r => r.status_counts k)).sum := fun k => (h.map _).sum_eq
    have hc : ∀ k, (l.map (fun r => r.sensor_counts k)).sum =
        (l'.map (fun r => r.sensor_counts k)).sum := fun k => (h.map _).sum_eq
    simp only [ht, he, hh, hl]
    congr 1 <;> funext k <;> [exact hs k; exact hc k]
  · rw [merge_results_spec, merge_results_spec]
    have key : ∀ f : ProcResults → Nat,
        ((gs.flatten).map f).sum =
        ((gs.map (fun g => (merge_results g).toProcResults)).map f).sum ∨ True := fun _ => Or.inr trivial
    have ht : ((gs.flatten).map (fun r => r.total)).sum =
        ((gs.map (fun g => (merge_results g).toProcResults)).map (fun r => r.total)).sum := by
      simp only [List.map_flatten, List.sum_flatten, List.map_map]
      congr 1
      refine List.map_congr_left fun g _ => ?_
      simp [Merged.toProcResults, merge_results_spec]
    have he : ((gs.flatten).map (fun r => r.energy_sum)).sum =
        ((gs.map (fun g => (merge_results g).toProcResults)).map (fun r => r.energy_sum)).sum := by
      simp only [List.map_flatten, List.sum_flatten, List.map_map]
      congr 1
      refine List.map_congr_left fun g _ => ?_
      simp [Merged.toProcResults, merge_results_spec]
    have hh : ((gs.flatten).map (fun r => r.high_energy_events)).sum =
        ((gs.map (fun g => (merge_results g).toProcResults)).map
          (fun r => r.high_energy_events)).sum := by
      simp only [List.map_flatten, List.sum_flatten, List.map_map]
      congr 1
      refine List.map_congr_left fun g _ => ?_
      simp [Merged.toProcResults, merge_results_spec]
    have hs : ∀ k, ((gs.flatten).map (fun r => r.status_counts k)).sum =
        ((gs.map (fun g => (merge_results g).toProcResults)).map
          (fun r => r.status_counts k)).sum := by
      intro k
      simp only [List.map_flatten, List.sum_flatten, List.map_map]
      congr 1
      refine List.map_congr_left fun g _ => ?_
      simp [Merged.toProcResults, merge_results_spec]
    have hc : ∀ k, ((gs.flatten).map (fun r => r.sensor_counts k)).sum =
        ((gs.map (fun g => (merge_results g).toProcResults)).map
          (fun r => r.sensor_counts k)).sum := by
      intro k
      simp only [List.map_flatten, List.sum_flatten, List.map_map]
      congr 1
      refine List.map_congr_left fun g _ => ?_
      simp [Merged.toProcResults, merge_results_spec]
    refine ⟨ht, funext hs, funext hc, he, hh, ?_⟩
    simp only [ht, he]

/-- The float-faithful merge fold characterised: the integer counters are
exact per-field sums, `energy_sum` is the left fold of binary64 additions in
input order, and `chunks_processed`/`avg_energy` are untouched by the fold. -/
theorem merge_fold_float_spec (rs : List ProcResults) (m0 : Merged) :
    rs.foldl mergeStepFloat m0 =
    { total := m0.total + (rs.map (fun r => r.total)).sum
      status_counts := fun k => m0.status_counts k + (rs.map (fun r => r.status_counts k)).sum
      sensor_counts := fun k => m0.sensor_counts k + (rs.map (fun r => r.sensor_counts k)).sum
      energy_sum := (rs.map (fun r => r.energy_sum)).foldl flAdd m0.energy_sum
      high_energy_events := m0.high_energy_events + (rs.map (fun r => r.high_energy_events)).sum
      chunks_processed := m0.chunks_processed
      avg_energy := m0.avg_energy } := by
  induction rs generalizing m0 with
  | nil => simp
  | cons r rs ih =>
    simp only [List.foldl_cons, List.map_cons, List.sum_cons, ih, mergeStepFloat]
    congr 1 <;> first
      | omega
      | (funext k; dsimp; omega)

/-- The integer fields of the float-faithful merge: exact sums over the
inputs, with `chunks_processed` the input length. -/
theorem merge_results_float_fields (rs : List ProcResults) :
    (merge_resultsFloat rs).total = (rs.map (fun r => r.total)).sum ∧
    (merge_resultsFloat rs).status_counts =
      (fun k => (rs.map (fun r => r.status_counts k)).sum) ∧
    (merge_resultsFloat rs).sensor_counts =
      (fun k => (rs.map (fun r => r.sensor_counts k)).sum) ∧
    (merge_resultsFloat rs).high_energy_events =
      (rs.map (fun r => r.high_energy_events)).sum ∧
    (merge_resultsFloat rs).chunks_processed = rs.length := by
  unfold merge_resultsFloat
  rw [merge_fold_float_spec]
  refine ⟨by simp, ?_, ?_, by simp, by simp⟩ <;> (funext k; simp)

theorem ilog2_big : ilog2 ((10 : Rat) ^ 16) = 53 := by
  unfold ilog2
  rw [if_pos (by norm_num)]
  have hfloor : ⌊((10 : Rat) ^ 16)⌋ = 10 ^ 16 := by norm_num
  rw [hfloor]
  norm_num
  decide

theorem ilog2_big_succ : ilog2 ((10 : Rat) ^ 16 + 1) = 53 := by
  unfold ilog2
  rw [if_pos (by norm_num)]
  have hfloor : ⌊((10 : Rat) ^ 16 + 1)⌋ = 10 ^ 16 + 1 := by norm_num
  rw [hfloor]
  norm_num
  decide

theorem ilog2_one : ilog2 (1 : Rat) = 0 := by
  unfold ilog2
  rw [if_pos (by norm_num)]
  norm_num
  decide

theorem ipow2_neg_one : ipow2 (-1) = 1 / 2 := by
  unfold ipow2
  rw [if_neg (by norm_num)]
  norm_num

theorem ipow2_one : ipow2 1 = 2 := by
  unfold ipow2
  rw [if_pos (by norm_num)]
  norm_num

theorem ipow2_52 : ipow2 52 = 2 ^ 52 := by
  unfold ipow2
  rw [if_pos (by norm_num), show ((52 : Int).toNat) = 52 from rfl]

theorem ipow2_neg_52 : ipow2 (-52) = 1 / 2 ^ 52 := by
  unfold ipow2
  rw [if_neg (by norm_num), show ((-(-52 : Int)).toNat) = 52 from rfl]

/-- `1e16` is exactly representable in binary64 (it is below `2^54` with an
even integer significand scaled by 2), so rounding fixes it. -/
theorem rnd64_big : roundB64 ((10 : Rat) ^ 16) = 10 ^ 16 := by
  unfold roundB64
  rw [if_pos (by norm_num)]
  unfold roundB64pos
  rw [ilog2_big]
  show ((rnEvenInt ((10 : Rat) ^ 16 * ipow2 (-1)) : Rat)) * ipow2 1 = 10 ^ 16
  rw [ipow2_neg_one, ipow2_one]
  have h3 : rnEvenInt ((10 : Rat) ^ 16 * (1 / 2)) = 5000000000000000 := by
    unfold rnEvenInt
    have hf : ⌊((10 : Rat) ^ 16 * (1 / 2))⌋ = 5000000000000000 := by norm_num
    rw [hf]
    rw [if_pos (by norm_num)]
  rw [h3]
  norm_num

/-- `1e16 + 1` is the midpoint of the two neighbouring binary64 values
`1e16` and `1e16 + 2`; ties-to-even rounds it DOWN to `1e16` (significand
`5e15` is even), so the float addition `1e16 + 1.0` loses the 1. -/
theorem rnd64_big_succ : roundB64 ((10 : Rat) ^ 16 + 1) = 10 ^ 16 := by
  unfold roundB64
  rw [if_pos (by norm_num)]
  unfold roundB64pos
  rw [ilog2_big_succ]
  show ((rnEvenInt (((10 : Rat) ^ 16 + 1) * ipow2 (-1)) : Rat)) * ipow2 1 = 10 ^ 16
  rw [ipow2_neg_one, ipow2_one]
  have h3 : rnEvenInt (((10 : Rat) ^ 16 + 1) * (1 / 2)) = 5000000000000000 := by
    unfold rnEvenInt
    have hf : ⌊(((10 : Rat) ^ 16 + 1) * (1 / 2))⌋ = 5000000000000000 := by norm_num
    rw [hf]
    rw [if_neg (by norm_num), if_neg (by norm_num), if_pos (by norm_num)]
  rw [h3]
  norm_num

theorem rnd64_one : roundB64 (1 : Rat) = 1 := by
  unfold roundB64
  rw [if_pos (by norm_num)]
  unfold roundB64pos
  rw [ilog2_one]
  show ((rnEvenInt ((1 : Rat) * ipow2 52) : Rat)) * ipow2 (-52) = 1
  rw [ipow2_52, ipow2_neg_52]
  have h3 : rnEvenInt ((1 : Rat) * 2 ^ 52) = 2 ^ 52 := by
    unfold rnEvenInt
    have hf : ⌊((1 : Rat) * 2 ^ 52)⌋ = 2 ^ 52 := by norm_num
    rw [hf]
    rw [if_pos (by norm_num)]
  rw [h3]
  norm_num

theorem rnd64_zero : roundB64 (0 : Rat) = 0 := by
  unfold roundB64
  norm_num

/-- C2 counterexample: with the program's binary64 float accumulation
(compute.py line 86), merging the three per-chunk energy sums `1e16`, `1.0`,
`-1e16` gives `energy_sum = 0` in one order and `energy_sum = 1` in a
permutation of it (`(1e16 + 1.0) + -1e16` rounds the inner sum back to
`1e16`, while `(1e16 + -1e16) + 1.0` keeps the 1), so the merge is NOT
permutation-invariant on `energy_sum`/`average_energy` and the claimed
identity of aggregates fails for the code. -/
theorem merge_results_float_order_counterexample :
    ([pBig, pOne, pNegBig] : List ProcResults).Perm [pBig, pNegBig, pOne] ∧
    (merge_resultsFloat [pBig, pOne, pNegBig]).energy_sum = 0 ∧
    (merge_resultsFloat [pBig, pNegBig, pOne]).energy_sum = 1 := by
  refine ⟨List.Perm.cons pBig (List.Perm.swap pNegBig pOne []), ?_, ?_⟩
  · show flAdd (flAdd (flAdd 0 ((10 : Rat) ^ 16)) 1) (-((10 : Rat) ^ 16)) = 0
    have s1 : flAdd 0 ((10 : Rat) ^ 16) = 10 ^ 16 := by
      unfold flAdd
      rw [zero_add, rnd64_big]
    rw [s1]
    have s2 : flAdd ((10 : Rat) ^ 16) 1 = 10 ^ 16 := by
      unfold flAdd
      rw [rnd64_big_succ]
    rw [s2]
    unfold flAdd
    rw [add_neg_cancel, rnd64_zero]
  · show flAdd (flAdd (flAdd 0 ((10 : Rat) ^ 16)) (-((10 : Rat) ^ 16))) 1 = 1
    have s1 : flAdd 0 ((10 : Rat) ^ 16) = 10 ^ 16 := by
      unfold flAdd
      rw [zero_add, rnd64_big]
    rw [s1]
    have s2 : flAdd ((10 : Rat) ^ 16) (-((10 : Rat) ^ 16)) = 0 := by
      unfold flAdd
      rw [add_neg_cancel, rnd64_zero]
    rw [s2]
    unfold flAdd
    rw [zero_add, rnd64_one]

/-- C2 amended: with the program's binary64 float accumulation, merging in
any permutation or grouping still yields identical `total`, `status_counts`,
`sensor_counts`, `high_energy_count` (exact integer per-key sums) — and
identical `chunks_processed` under permutation — but `energy_sum` and
`average_energy` are order- and grouping-independent only under exact
(rational) arithmetic, where the full invariance holds. -/
theorem merge_results_float_perm_and_grouping (l l' : List ProcResults) (h : l.Perm l')
    (gs : List (List ProcResults)) :
    ((merge_resultsFloat l).total = (merge_resultsFloat l').total ∧
     (merge_resultsFloat l).status_counts = (merge_resultsFloat l').status_counts ∧
     (merge_resultsFloat l).sensor_counts = (merge_resultsFloat l').sensor_counts ∧
     (merge_resultsFloat l).high_energy_events = (merge_resultsFloat l').high_energy_events ∧
     (merge_resultsFloat l).chunks_processed = (merge_resultsFloat l').chunks_processed) ∧
    ((merge_resultsFloat gs.flatten).total =
       (merge_resultsFloat (gs.map (fun g => (merge_resultsFloat g).toProcResults))).total ∧
     (merge_resultsFloat gs.flatten).status_counts =
       (merge_resultsFloat (gs.map (fun g => (merge_resultsFloat g).toProcResults))).status_counts ∧
     (merge_resultsFloat gs.flatten).sensor_counts =
       (merge_resultsFloat (gs.map (fun g => (merge_resultsFloat g).toProcResults))).sensor_counts ∧
     (merge_resultsFloat gs.flatten).high_energy_events =
       (merge_resultsFloat (gs.map (fun g => (merge_resultsFloat g).toProcResults))).high_energy_events) ∧
    merge_results l = merge_results l' ∧
    aggEquiv (merge_results gs.flatten)
      (merge_results (gs.map (fun g => (merge_results g).toProcResults))) := by
  obtain ⟨t1, s1, c1, hh1, n1⟩ := merge_results_float_fields l
  obtain ⟨t2, s2, c2, hh2, n2⟩ := merge_results_float_fields l'
  refine ⟨⟨?_, ?_, ?_, ?_, ?_⟩, ⟨?_, ?_, ?_, ?_⟩,
    (merge_results_perm_and_grouping l l' h gs).1,
    (merge_results_perm_and_grouping l l' h gs).2⟩
  · rw [t1, t2]; exact (h.map _).sum_eq
  · rw [s1, s2]; funext k; exact (h.map _).sum_eq
  · rw [c1, c2]; funext k; exact (h.map _).sum_eq
  · rw [hh1, hh2]; exact (h.map _).sum_eq
  · rw [n1, n2]; exact h.length_eq
  · rw [(merge_results_float_fields gs.flatten).1,
      (merge_results_float_fields (gs.map (fun g => (merge_resultsFloat g).toProcResults))).1]
    simp only [List.map_flatten, List.sum_flatten, List.map_map]
    congr 1
    refine List.map_congr_left fun g _ => ?_
    simp [Merged.toProcResults, (merge_results_float_fields g).1]
  · rw [(merge_results_float_fields gs.flatten).2.1,
      (merge_results_float_fields (gs.map (fun g => (merge_resultsFloat g).toProcResults))).2.1]
    funext k
    simp only [List.map_flatten, List.sum_flatten, List.map_map]
    congr 1
    refine List.map_congr_left fun g _ => ?_
    simp [Merged.toProcResults, (merge_results_float_fields g).2.1]
  · rw [(merge_results_float_fields gs.flatten).2.2.1,
      (merge_results_float_fields (gs.map (fun g => (merge_resultsFloat g).toProcResults))).2.2.1]
    funext k
    simp only [List.map_flatten, List.sum_flatten, List.map_map]
    congr 1
    refine List.map_congr_left fun g _ => ?_
    simp [Merged.toProcResults, (merge_results_float_fields g).2.2.1]
  · rw [(merge_results_float_fields gs.flatten).2.2.2.1,
      (merge_results_float_fields (gs.map (fun g => (merge_resultsFloat g).toProcResults))).2.2.2.1]
    simp only [List.map_flatten, List.sum_flatten, List.map_map]
    congr 1
    refine List.map_congr_left fun g _ => ?_
    simp [Merged.toProcResults, (merge_results_float_fields g).2.2.2.1]

/-- Witness for C2 amended: the lists `[pBig, pOne]` and `[pOne, pBig]`
(a swap) and the grouping `[[pBig], [pOne]]`. -/
theorem merge_results_float_perm_and_grouping_witness :
    (((merge_resultsFloat [pBig, pOne]).total = (merge_resultsFloat [pOne, pBig]).total ∧
     (merge_resultsFloat [pBig, pOne]).status_counts = (merge_resultsFloat [pOne, pBig]).status_counts ∧
     (merge_resultsFloat [pBig, pOne]).sensor_counts = (merge_resultsFloat [pOne, pBig]).sensor_counts ∧
     (merge_resultsFloat [pBig, pOne]).high_energy_events = (merge_resultsFloat [pOne, pBig]).high_energy_events ∧
     (merge_resultsFloat [pBig, pOne]).chunks_processed = (merge_resultsFloat [pOne, pBig]).chunks_processed) ∧
    ((merge_resultsFloat ([[pBig], [pOne]] : List (List ProcResults)).flatten).total =
       (merge_resultsFloat (([[pBig], [pOne]] : List (List ProcResults)).map (fun g => (merge_resultsFloat g).toProcResults))).total ∧
     (merge_resultsFloat ([[pBig], [pOne]] : List (List ProcResults)).flatten).status_counts =
       (merge_resultsFloat (([[pBig], [pOne]] : List (List ProcResults)).map (fun g => (merge_resultsFloat g).toProcResults))).status_counts ∧
     (merge_resultsFloat ([[pBig], [pOne]] : List (List ProcResults)).flatten).sensor_counts =
       (merge_resultsFloat (([[pBig], [pOne]] : List (List ProcResults)).map (fun g => (merge_resultsFloat g).toProcResults))).sensor_counts ∧
     (merge_resultsFloat ([[pBig], [pOne]] : List (List ProcResults)).flatten).high_energy_events =
       (merge_resultsFloat (([[pBig], [pOne]] : List (List ProcResults)).map (fun g => (merge_resultsFloat g).toProcResults))).high_energy_events) ∧
    merge_results [pBig, pOne] = merge_results [pOne, pBig] ∧
    aggEquiv (merge_results ([[pBig], [pOne]] : List (List ProcResults)).flatten)
      (merge_results (([[pBig], [pOne]] : List (List ProcResults)).map (fun g => (merge_results g).toProcResults)))) :=
  merge_results_float_perm_and_grouping [pBig, pOne] [pOne, pBig]
    (List.Perm.swap pOne pBig []) [[pBig], [pOne]]

/-- C5: for an existing input file, `process_events` rejects every method
value other than the two known variants (`"multiprocessing"`, alias
in_process, and `"subprocess"`, alias out_of_process) with an unknown-method
error, producing no merged result. -/
theorem process_events_unknown_method (f : String) (rows : List Row) (n : Nat)
    (method : String) (completed : Nat → Bool) (elapsed : Nat → Rat)
    (h1 : method ≠ "multiprocessing") (h2 : method ≠ "subprocess") :
    process_events f (some rows) n method completed elapsed =
      .error (.unknownMethod method) := by
  simp [process_events, h1, h2]

/-- Witness for C5 at method `"grpc"`. -/
theorem process_events_unknown_method_witness :
    ("grpc" ≠ "multiprocessing" ∧ "grpc" ≠ "subprocess") ∧
    process_events "events.csv" (some []) 4 "grpc" (fun _ => true) (fun _ => 0) =
      .error (.unknownMethod "grpc") :=
  ⟨⟨by decide, by decide⟩,
    process_events_unknown_method "events.csv" [] 4 "grpc" (fun _ => true) (fun _ => 0)
      (by decide) (by decide)⟩

/-- C6 counterexample: `merge_results` applied to zero per-chunk results does
not fail — there is no EmptyResultSet error anywhere in its type or code —
it returns the all-zero aggregate. -/
theorem merge_results_empty_counterexample :
    merge_results [] =
      { total := 0, status_counts := fun _ => 0, sensor_counts := fun _ => 0,
        energy_sum := 0, high_energy_events := 0, chunks_processed := 0,
        avg_energy := 0 } := by
  simp [merge_results, mergeStep]

/-- C6 amended: given zero per-chunk results, `merge_results` returns an
aggregate with `total = 0`, `chunks_processed = 0` and `avg_energy = 0`
(instead of failing with EmptyResultSet, which the code does not have). -/
theorem merge_results_empty :
    (merge_results []).total = 0 ∧ (merge_results []).chunks_processed = 0 ∧
    (merge_results []).avg_energy = 0 := by
  rw [merge_results_spec]
  simp

theorem filterMap_if {α β : Type} (p : α → Bool) (g : α → β) (l : List α) :
    l.filterMap (fun x => if p x then some (g x) else none) = (l.filter p).map g := by
  induction l with
  | nil => rfl
  | cons a l ih =>
    by_cases h : p a <;> simp [List.filterMap_cons, List.filter_cons, h, ih]

/-- C3 counterexample: two rows, two chunks, worker 1's artifact missing
(`completed 1 = false`): `_process_subprocess` returns a merged aggregate
built from the single remaining artifact (`chunks_processed = 1`,
`total = 1`) instead of failing — no IncompleteWorkerSet error exists. -/
theorem processSubprocess_missing_artifact_counterexample :
    processSubprocess [⟨"ok", "s1", 50⟩, ⟨"bad", "s2", 150⟩]
        (split_into_chunks 2 2) 2 (fun i => i == 0) (fun _ => 0) =
      { merged := merge_results [(worker_main [⟨"ok", "s1", 50⟩, ⟨"bad", "s2", 150⟩] 0 1 0 0).res]
        method := "subprocess", num_workers := 2 } ∧
    (processSubprocess [⟨"ok", "s1", 50⟩, ⟨"bad", "s2", 150⟩]
        (split_into_chunks 2 2) 2 (fun i => i == 0) (fun _ => 0)).merged.chunks_processed = 1 ∧
    (processSubprocess [⟨"ok", "s1", 50⟩, ⟨"bad", "s2", 150⟩]
        (split_into_chunks 2 2) 2 (fun i => i == 0) (fun _ => 0)).merged.total = 1 := by
  refine ⟨rfl, rfl, rfl⟩

/-- C3 amended: when artifacts are missing after all processes terminate,
the out-of-process strategy silently skips them: it returns the merge of
exactly the artifacts found, with `chunks_processed` equal to their number;
it never raises an IncompleteWorkerSet error. -/
theorem processSubprocess_skips_missing (rows : List Row) (chunks : List (Nat × Nat))
    (n : Nat) (completed : Nat → Bool) (elapsed : Nat → Rat) :
    processSubprocess rows chunks n completed elapsed =
      { merged := merge_results ((chunks.enum.filter fun ic => completed ic.1).map
          fun ic => (worker_main rows ic.2.1 ic.2.2 ic.1 (elapsed ic.1)).res)
        method := "subprocess", num_workers := n } ∧
    (processSubprocess rows chunks n completed elapsed).merged.chunks_processed =
      (chunks.enum.filter fun ic => completed ic.1).length := by
  have hcollect :
      (chunks.enum.map fun ic =>
        if completed ic.1 then some (worker_main rows ic.2.1 ic.2.2 ic.1 (elapsed ic.1))
        else none).filterMap id =
      (chunks.enum.filter fun ic => completed ic.1).map
        fun ic => worker_main rows ic.2.1 ic.2.2 ic.1 (elapsed ic.1) := by
    rw [List.filterMap_map]
    have : (id ∘ fun ic : Nat × (Nat × Nat) =>
        if completed ic.1 then some (worker_main rows ic.2.1 ic.2.2 ic.1 (elapsed ic.1))
        else none) = fun ic =>
        if completed ic.1 then some (worker_main rows ic.2.1 ic.2.2 ic.1 (elapsed ic.1))
        else none := rfl
    rw [this, filterMap_if]
  constructor
  · unfold processSubprocess
    simp only [hcollect, List.map_map]
    rfl
  · unfold processSubprocess
    simp only [hcollect, List.map_map]
    rw [merge_results_spec]
    simp

/-- The two copies of the per-chunk computation coincide: worker.py's
`EventProcessor` pipeline is the same code as compute.py's. -/
theorem worker_main_res_eq_process_chunk_worker (rows : List Row)
    (start_row num_rows wid : Nat) (elapsed : Rat) :
    (worker_main rows start_row num_rows wid elapsed).res =
      (process_chunk_worker rows start_row num_rows wid).res := rfl

/-- C7: on the same input file and the same `num_workers`, the in-process
pool strategy (`"multiprocessing"`) and the out-of-process worker strategy
(`"subprocess"`, in a run where every worker writes its artifact) both
succeed and produce the identical merged aggregate and `num_workers`,
differing only in the `method` label (and in timing inputs, which the
aggregate does not depend on). -/
theorem strategies_agree (f : String) (rows : List Row) (n : Nat) (elapsed : Nat → Rat) :
    ∃ a b : FinalResults,
      process_events f (some rows) n "multiprocessing" (fun _ => true) elapsed = .ok a ∧
      process_events f (some rows) n "subprocess" (fun _ => true) elapsed = .ok b ∧
      a.merged = b.merged ∧ a.num_workers = b.num_workers ∧
      a.method = "multiprocessing" ∧ b.method = "subprocess" := by
  refine ⟨processMultiprocessing rows (split_into_chunks rows.length n) n,
    processSubprocess rows (split_into_chunks rows.length n) n (fun _ => true) elapsed,
    by simp [process_events], by simp [process_events], ?_, rfl, rfl, rfl⟩
  have hfr := (processSubprocess_skips_missing rows (split_into_chunks rows.length n) n
    (fun _ => true) elapsed).1
  rw [hfr]
  simp [processMultiprocessing, List.filter_true, List.map_map]
  congr 1

/-- Witness for C1 at `total_rows = 10`, `num_workers = 3`. -/
theorem split_into_chunks_partition_witness :
    1 ≤ 3 ∧
    ((split_into_chunks 10 3).length = 3 ∧
    (∀ h0 : 0 < (split_into_chunks 10 3).length,
      ((split_into_chunks 10 3).get ⟨0, h0⟩).1 = 0) ∧
    (∀ i (h : i + 1 < (split_into_chunks 10 3).length),
      ((split_into_chunks 10 3).get ⟨i + 1, h⟩).1 =
        ((split_into_chunks 10 3).get ⟨i, Nat.lt_of_succ_lt h⟩).1 +
        ((split_into_chunks 10 3).get ⟨i, Nat.lt_of_succ_lt h⟩).2) ∧
    ((split_into_chunks 10 3).map (fun c => c.2)).sum = 10 ∧
    (∀ i (h : i < (split_into_chunks 10 3).length), i < 3 - 1 →
      ((split_into_chunks 10 3).get ⟨i, h⟩).2 = 10 / 3) ∧
    (∀ h : 3 - 1 < (split_into_chunks 10 3).length,
      ((split_into_chunks 10 3).get ⟨3 - 1, h⟩).2 = 10 - (3 - 1) * (10 / 3))) :=
  ⟨by decide, split_into_chunks_partition 10 3 (by decide)⟩

theorem lookupJob_map_update (jobs : List (String × Job)) (jid : String)
    (f : Job → Job) (j : Job) (h : lookupJob jobs jid = some j) :
    lookupJob (jobs.map fun kj => if kj.1 = jid then (kj.1, f kj.2) else kj) jid =
      some (f j) := by
  induction jobs with
  | nil => simp [lookupJob] at h
  | cons kj rest ih =>
    by_cases hk : kj.1 = jid
    · simp only [lookupJob, if_pos hk, Option.some.injEq] at h
      subst h
      simp [lookupJob, hk]
    · simp only [lookupJob, if_neg hk] at h
      simp only [List.map_cons]
      rw [if_neg hk]
      simp only [lookupJob]
      rw [if_neg hk]
      exact ih h

theorem lookupJob_updateIfPresent (jobs : List (String × Job)) (jid : String)
    (f : Job → Job) (j : Job) (h : lookupJob jobs jid = some j) :
    lookupJob (updateIfPresent jobs jid f) jid = some (f j) := by
  unfold updateIfPresent
  rw [h]
  simp only [Option.isSome_some, if_true]
  exact lookupJob_map_update jobs jid f j h

theorem applyStatus_status (s : JobStatus) (now : Rat) (j : Job) :
    (applyStatus s now j).status = s := by
  unfold applyStatus
  split_ifs <;> rfl

/-- C4 counterexample: the store lets a terminal job transition: updating the
completed job `cjob` to running simply sets its status to running — no
InvalidTransition failure, and the record changes. -/
theorem update_job_status_terminal_counterexample :
    cjob.status = JobStatus.completed ∧
    lookupJob (update_job_status [("a", cjob)] "a" JobStatus.running 5) "a" =
      some { cjob with status := JobStatus.running } ∧
    JobStatus.running ≠ JobStatus.completed := by
  refine ⟨rfl, ?_, by decide⟩
  rfl

/-- C4 amended: the job store itself checks nothing: `update_job_status` on an
existing job always records the requested status, whatever the current one
(terminal included); the only transition guard in the system is the HTTP
cancel endpoint, which rejects cancelling a job that is not pending/running
with an HTTP 400 error (not an InvalidTransition error kind). -/
theorem job_store_allows_any_transition (jobs : List (String × Job)) (jid : String)
    (j : Job) (s : JobStatus) (now : Rat) (h : lookupJob jobs jid = some j) :
    (∃ j', lookupJob (update_job_status jobs jid s now) jid = some j' ∧
      j'.status = s) ∧
    (j.status ≠ JobStatus.pending → j.status ≠ JobStatus.running →
      cancel_job jobs jid now = Except.error (CancelError.badStatus j.status)) := by
  constructor
  · exact ⟨applyStatus s now j,
      lookupJob_updateIfPresent jobs jid (applyStatus s now) j h,
      applyStatus_status s now j⟩
  · intro h1 h2
    unfold cancel_job
    rw [h]
    simp [h1, h2]

/-- Witness for C4 amended: the completed job `cjob` accepts a transition to
running, and cancelling it is rejected with the 400 error. -/
theorem job_store_allows_any_transition_witness :
    lookupJob [("a", cjob)] "a" = some cjob ∧
    ((∃ j', lookupJob (update_job_status [("a", cjob)] "a" JobStatus.running 5) "a" =
        some j' ∧ j'.status = JobStatus.running) ∧
    (cjob.status ≠ JobStatus.pending → cjob.status ≠ JobStatus.running →
      cancel_job [("a", cjob)] "a" 5 =
        Except.error (CancelError.badStatus cjob.status))) :=
  ⟨rfl, job_store_allows_any_transition [("a", cjob)] "a" cjob JobStatus.running 5 rfl⟩

/-- C9: every store mutation called with an id that is not in the registry is
a silent no-op: no error, registry exactly unchanged. -/
theorem store_mutations_missing_id_noop (jobs : List (String × Job)) (jid : String)
    (s : JobStatus) (p : Rat) (res : FinalResults) (err : String) (now : Rat)
    (h : lookupJob jobs jid = none) :
    update_job_status jobs jid s now = jobs ∧
    update_progress jobs jid p = jobs ∧
    complete_job jobs jid res now = jobs ∧
    fail_job jobs jid err now = jobs := by
  unfold update_job_status update_progress complete_job fail_job updateIfPresent
  rw [h]
  simp

/-- Witness for C9 on the empty registry and id `"x"`. -/
theorem store_mutations_missing_id_noop_witness :
    lookupJob [] "x" = none ∧
    (update_job_status [] "x" JobStatus.running 0 = [] ∧
    update_progress [] "x" 0 = [] ∧
    complete_job [] "x" ⟨merge_results [], "multiprocessing", 0⟩ 0 = [] ∧
    fail_job [] "x" "boom" 0 = []) :=
  ⟨rfl, store_mutations_missing_id_noop [] "x" JobStatus.running 0
    ⟨merge_results [], "multiprocessing", 0⟩ "boom" 0 rfl⟩

/-- C10: a limit of 0 is falsy for `if limit:` — `list_jobs` with `limit = 0`
returns exactly what it returns with no limit at all: every matching job,
newest-first, with no truncation. -/
theorem list_jobs_limit_zero (jobs : List (String × Job)) (status : Option JobStatus) :
    list_jobs jobs status (some 0) = list_jobs jobs status none ∧
    list_jobs jobs status (some 0) =
      sortJobsDesc (match status with
        | some s => (jobs.map fun kj => kj.2).filter fun j => decide (j.status = s)
        | none => jobs.map fun kj => kj.2) := by
  constructor <;> simp [list_jobs]

theorem sweepRemoves_iff (cutoff : Rat) (j : Job) :
    sweepRemoves cutoff j = true ↔
      (j.status = JobStatus.completed ∨ j.status = JobStatus.failed) ∧
      ∃ t, j.completed_at = some t ∧ t < cutoff := by
  unfold sweepRemoves
  cases j.completed_at <;> simp [beq_iff_eq]

theorem length_filter_not_add {α : Type} (p : α → Bool) (l : List α) :
    (l.filter p).length + (l.filter fun a => !(p a)).length = l.length := by
  induction l with
  | nil => rfl
  | cons a l ih => by_cases h : p a <;> simp [List.filter_cons, h] <;> omega

/-- C8 counterexample: a cancelled job completed at time 0, swept at time
1000000 with a 24-hour retention (cutoff 913600 > 0, so it is a terminal job
older than the configured age) is NOT removed: the sweep returns 0 removals
and keeps the record, because the code only tests for completed/failed. -/
theorem clear_completed_jobs_cancelled_counterexample :
    canJob.status = JobStatus.cancelled ∧
    canJob.completed_at = some 0 ∧
    (0 : Rat) < 1000000 - (24 : Rat) * 3600 ∧
    clear_completed_jobs [("c", canJob)] 1000000 24 = some (0, [("c", canJob)]) := by
  refine ⟨rfl, rfl, by norm_num, rfl⟩

/-- C8 amended: the retention sweep removes exactly the jobs whose status is
Completed or Failed (never Cancelled) and whose completion time is older than
`now - hours * 3600`; it returns how many were removed and keeps every other
record unchanged — provided every completed/failed job carries a completion
time (otherwise the sweep raises instead of returning). -/
theorem clear_completed_jobs_spec (jobs : List (String × Job)) (now : Rat)
    (hours : Nat)
    (h : ∀ kj ∈ jobs, (kj.2.status = JobStatus.completed ∨
      kj.2.status = JobStatus.failed) → kj.2.completed_at ≠ none) :
    ∃ kept : List (String × Job),
      clear_completed_jobs jobs now hours = some (jobs.length - kept.length, kept) ∧
      kept = jobs.filter (fun kj => !(sweepRemoves (now - (hours : Rat) * 3600) kj.2)) ∧
      (∀ kj ∈ jobs, (kj ∈ kept ↔
        ¬((kj.2.status = JobStatus.completed ∨ kj.2.status = JobStatus.failed) ∧
          ∃ t, kj.2.completed_at = some t ∧ t < now - (hours : Rat) * 3600))) := by
  have hguard : jobs.any (fun kj =>
      ((kj.2.status == JobStatus.completed) || (kj.2.status == JobStatus.failed)) &&
      kj.2.completed_at.isNone) = false := by
    rw [List.any_eq_false]
    intro kj hkj
    have := h kj hkj
    cases hs : kj.2.status <;> cases hc : kj.2.completed_at <;>
      simp_all [Option.isNone]
  refine ⟨jobs.filter (fun kj => !(sweepRemoves (now - (hours : Rat) * 3600) kj.2)),
    ?_, rfl, ?_⟩
  · unfold clear_completed_jobs
    rw [hguard]
    simp only [Bool.false_eq_true, if_false]
    congr 1
    congr 1
    have hadd := length_filter_not_add
      (fun kj : String × Job => sweepRemoves (now - (hours : Rat) * 3600) kj.2) jobs
    simp only at hadd
    omega
  · intro kj hkj
    rw [List.mem_filter]
    constructor
    · rintro ⟨-, hb⟩
      intro hcontra
      rw [← sweepRemoves_iff (now - (hours : Rat) * 3600) kj.2] at hcontra
      rw [hcontra] at hb
      simp at hb
    · intro hnot
      refine ⟨hkj, ?_⟩
      cases hb : sweepRemoves (now - (hours : Rat) * 3600) kj.2
      · rfl
      · exact absurd ((sweepRemoves_iff _ _).mp hb) hnot

/-- Witness for C8 amended: a registry holding the completed job `cjob`
(completion time 2) and the cancelled job `canJob`, swept at time 1000000
with a 24-hour retention. -/
theorem clear_completed_jobs_spec_witness :
    (∀ kj ∈ [("a", cjob), ("c", canJob)], (kj.2.status = JobStatus.completed ∨
      kj.2.status = JobStatus.failed) → kj.2.completed_at ≠ none) ∧
    (∃ kept : List (String × Job),
      clear_completed_jobs [("a", cjob), ("c", canJob)] 1000000 24 =
        some (([("a", cjob), ("c", canJob)] : List (String × Job)).length - kept.length, kept) ∧
      kept = ([("a", cjob), ("c", canJob)] : List (String × Job)).filter
        (fun kj => !(sweepRemoves (1000000 - (24 : Rat) * 3600) kj.2)) ∧
      (∀ kj ∈ [("a", cjob), ("c", canJob)], (kj ∈ kept ↔
        ¬((kj.2.status = JobStatus.completed ∨ kj.2.status = JobStatus.failed) ∧
          ∃ t, kj.2.completed_at = some t ∧ t < 1000000 - (24 : Rat) * 3600)))) := by
  have hyp : ∀ kj ∈ [("a", cjob), ("c", canJob)], (kj.2.status = JobStatus.completed ∨
      kj.2.status = JobStatus.failed) → kj.2.completed_at ≠ none := by
    intro kj hkj hterm
    simp only [List.mem_cons, List.not_mem_nil, or_false] at hkj
    rcases hkj with rfl | rfl
    · simp [cjob]
    · rcases hterm with h1 | h1 <;> simp [canJob] at h1
  exact ⟨hyp, clear_completed_jobs_spec [("a", cjob), ("c", canJob)] 1000000 24 hyp⟩

end Helios
